import Mathlib

set_option maxRecDepth 1000000

/-!
Shallow embedding of the simulation engine of `src/als.c` (Artificial-Life
Simulator).  Real-valued quantities (C `double`) are modelled as rationals.
The process-wide pseudorandom source (`(double)rand() / RAND_MAX`) is
modelled as an explicit stream `ρ : ℕ → ℚ` of draws together with a cursor
`c : ℕ` that is threaded through every operation in the exact order of the
`rand()` calls in the source.  The transcendental direction computation
`(cos (atan2 dy dx), sin (atan2 dy dx))` used by the foraging steering is
kept as an explicit parameter `dir : ℚ → ℚ → ℚ × ℚ` (first argument `dy`,
second `dx`, as in `atan2`); where a concrete instantiation is needed it is
chosen to agree with the mathematical cosine/sine at the points used.

The two loops of the source that iterate over an array that grows while the
loop is running (the inner food loop of `handle_interactions`, which can
respawn food during the scan, and the turnover loop of `simulate_step`,
which appends offspring to the array it iterates) are defined by structural
recursion on an explicit fuel argument.  `simulate_step` supplies fuel
`length + capacity + 1`, which always suffices: every iteration consumes one
unit, and the number of iterations is the final array length plus one, which
is at most the initial length plus the capacity (each append is guarded by a
strict capacity check).
-/

namespace ALS

/-- `MAX_LIFE_FORMS` of `als.c`. -/
def MAX_LIFE_FORMS : ℕ := 200

/-- `MAX_FOOD_SOURCES` of `als.c`. -/
def MAX_FOOD_SOURCES : ℕ := 100

/-- `WINDOW_WIDTH` of `als.c`. -/
def WINDOW_WIDTH : ℚ := 800

/-- `WINDOW_HEIGHT` of `als.c`. -/
def WINDOW_HEIGHT : ℚ := 600

/-- `LIFE_FORM_RADIUS` of `als.c`. -/
def LIFE_FORM_RADIUS : ℚ := 8

/-- `FOOD_RADIUS` of `als.c`. -/
def FOOD_RADIUS : ℚ := 3

/-- `MAX_ENERGY` of `als.c`. -/
def MAX_ENERGY : ℚ := 100

/-- `REPRODUCTION_THRESHOLD` of `als.c`. -/
def REPRODUCTION_THRESHOLD : ℚ := 80

/-- `ENERGY_LOSS_PER_STEP` of `als.c` (0.05). -/
def ENERGY_LOSS_PER_STEP : ℚ := 1/20

/-- `ENERGY_GAIN_FROM_FOOD` of `als.c`. -/
def ENERGY_GAIN_FROM_FOOD : ℚ := 20

/-- `MAX_SPEED` of `als.c` (1.5). -/
def MAX_SPEED : ℚ := 3/2

/-- The `LifeForm` struct of `als.c`.  The C `int id` is only ever assigned
the value of the non-negative counter `life_form_count`, so it is modelled
as `ℕ`; the three `Uint8` colour channels are likewise modelled as `ℕ`
(they are only ever copied, never computed with). -/
structure LifeForm where
  x : ℚ
  y : ℚ
  vx : ℚ
  vy : ℚ
  energy : ℚ
  speed_factor : ℚ
  id : ℕ
  r : ℕ
  g : ℕ
  b : ℕ
deriving DecidableEq, Repr

/-- The `Food` struct of `als.c`; the C `int is_present` flag is only ever
assigned 0 or 1, so it is modelled as `Bool`. -/
structure Food where
  x : ℚ
  y : ℚ
  is_present : Bool
deriving DecidableEq, Repr

/-- `distance_sq` of `als.c`: squared Euclidean distance. -/
def distance_sq (x1 y1 x2 y2 : ℚ) : ℚ :=
  (x1 - x2) * (x1 - x2) + (y1 - y2) * (y1 - y2)

/-- `spawn_life_form` of `als.c`, acting on the life-form array (modelled as
the list of its first `life_form_count` entries, so `life_form_count` is the
list length).  If the collection is below capacity a new record is appended
whose `id` is the current count and whose velocity components come from two
fresh draws; otherwise the call is silently rejected and no draw is
consumed.  Returns the new collection and the new random cursor. -/
def spawn_life_form (ρ : ℕ → ℚ) (c : ℕ) (agents : List LifeForm)
    (x y energy speed_factor : ℚ) (r g b : ℕ) : List LifeForm × ℕ :=
  if agents.length < MAX_LIFE_FORMS then
    (agents ++ [{ x := x, y := y,
                  vx := (ρ c - 1/2) * MAX_SPEED * speed_factor,
                  vy := (ρ (c+1) - 1/2) * MAX_SPEED * speed_factor,
                  energy := energy, speed_factor := speed_factor,
                  id := agents.length, r := r, g := g, b := b }], c + 2)
  else (agents, c)

/-- `spawn_food` of `als.c`: append a present food item if below capacity,
otherwise silently reject. -/
def spawn_food (foods : List Food) (x y : ℚ) : List Food :=
  if foods.length < MAX_FOOD_SOURCES then
    foods ++ [{ x := x, y := y, is_present := true }]
  else foods

/-- The energy clamp at the end of `update_life_form` (`als.c` lines
326-328): two sequential conditional assignments, equivalent to this nested
conditional. -/
def clamp_energy (e : ℚ) : ℚ :=
  if e > MAX_ENERGY then MAX_ENERGY else if e < 0 then 0 else e

/-- The nearest-present-food scan of `update_life_form` (`als.c` lines
296-308): fold over the food array in order, keeping the first food that
attains the minimal squared distance (the C test is
`nearest_food_idx == -1 || dist_sq < nearest_food_dist_sq`).  Carries the
best candidate together with its squared distance. -/
def nearest_food_aux (x y : ℚ) (foods : List Food)
    (best : Option (Food × ℚ)) : Option (Food × ℚ) :=
  match foods with
  | [] => best
  | f :: rest =>
    if f.is_present then
      let d := distance_sq x y f.x f.y
      match best with
      | none => nearest_food_aux x y rest (some (f, d))
      | some bf =>
        if d < bf.2 then nearest_food_aux x y rest (some (f, d))
        else nearest_food_aux x y rest (some bf)
    else nearest_food_aux x y rest best

/-- The x-axis wall bounce of `update_life_form` (`als.c` lines 280-286):
clamp the position to the boundary-adjusted value and flip the sign of the
velocity component.  Takes the post-movement position `x1` and the velocity
component `vx`; returns the corrected pair. -/
def bounce_x (x1 vx : ℚ) : ℚ × ℚ :=
  if x1 - LIFE_FORM_RADIUS < 0 then (LIFE_FORM_RADIUS, vx * (-1))
  else if x1 + LIFE_FORM_RADIUS > WINDOW_WIDTH then
    (WINDOW_WIDTH - LIFE_FORM_RADIUS, vx * (-1))
  else (x1, vx)

/-- The y-axis wall bounce of `update_life_form` (`als.c` lines 288-294). -/
def bounce_y (y1 vy : ℚ) : ℚ × ℚ :=
  if y1 - LIFE_FORM_RADIUS < 0 then (LIFE_FORM_RADIUS, vy * (-1))
  else if y1 + LIFE_FORM_RADIUS > WINDOW_HEIGHT then
    (WINDOW_HEIGHT - LIFE_FORM_RADIUS, vy * (-1))
  else (y1, vy)

/-- `update_life_form` of `als.c`: energy loss, Euler movement, wall bounce
(clamp position, flip the velocity sign on that axis), foraging steering
towards the nearest present food (overwriting the velocity with
`dir * MAX_SPEED * speed_factor`), or — when no food is present — a 1%
chance to redraw the velocity, and finally the energy clamp.  Returns the
updated life form and the new random cursor. -/
def update_life_form (dir : ℚ → ℚ → ℚ × ℚ) (ρ : ℕ → ℚ) (c : ℕ)
    (lf : LifeForm) (foods : List Food) : LifeForm × ℕ :=
  let e1 := lf.energy - ENERGY_LOSS_PER_STEP
  let px := bounce_x (lf.x + lf.vx) lf.vx
  let py := bounce_y (lf.y + lf.vy) lf.vy
  match nearest_food_aux px.1 py.1 foods none with
  | some fd =>
      let d := dir (fd.1.y - py.1) (fd.1.x - px.1)
      ({ lf with x := px.1, y := py.1,
                 vx := d.1 * MAX_SPEED * lf.speed_factor,
                 vy := d.2 * MAX_SPEED * lf.speed_factor,
                 energy := clamp_energy e1 }, c)
  | none =>
      if ρ c < 1/100 then
        ({ lf with x := px.1, y := py.1,
                   vx := (ρ (c+1) - 1/2) * MAX_SPEED * lf.speed_factor,
                   vy := (ρ (c+2) - 1/2) * MAX_SPEED * lf.speed_factor,
                   energy := clamp_energy e1 }, c + 3)
      else
        ({ lf with x := px.1, y := py.1, vx := px.2, vy := py.2,
                   energy := clamp_energy e1 }, c + 1)

/-- The update pass of `simulate_step` (`als.c` lines 366-368): run
`update_life_form` over every life form in order against the fixed food
snapshot, threading the random cursor. -/
def update_all (dir : ℚ → ℚ → ℚ × ℚ) (ρ : ℕ → ℚ) (c : ℕ)
    (agents : List LifeForm) (foods : List Food) : List LifeForm × ℕ :=
  match agents with
  | [] => ([], c)
  | a :: rest =>
    let u := update_life_form dir ρ c a foods
    let v := update_all dir ρ u.2 rest foods
    (u.1 :: v.1, v.2)

/-- The inner food loop of `handle_interactions` (`als.c` lines 335-350) for
one agent at `(ax, ay)` with current energy `energy`: scan the food array by
index `j`; a present food within `(LIFE_FORM_RADIUS + FOOD_RADIUS)^2`
squared distance is consumed (energy `+= ENERGY_GAIN_FROM_FOOD`, presence
flag cleared in place), and with probability 80% a replacement food is
spawned at a fresh random position — appended to the same array this loop is
scanning, so the C loop bound `j < food_count` re-reads the grown count;
this is reproduced here by recursing on the grown list.  Structural
recursion on `fuel`; the suppliers pass fuel `foods.length +
MAX_FOOD_SOURCES + 1`, which always suffices (see the module comment). -/
def feed_scan (ρ : ℕ → ℚ) (fuel : ℕ) (c : ℕ) (ax ay : ℚ) (energy : ℚ)
    (foods : List Food) (j : ℕ) : ℚ × List Food × ℕ :=
  match fuel with
  | 0 => (energy, foods, c)
  | fuel + 1 =>
    if h : j < foods.length then
      let f := foods.get ⟨j, h⟩
      if f.is_present then
        if distance_sq ax ay f.x f.y <
            (LIFE_FORM_RADIUS + FOOD_RADIUS) * (LIFE_FORM_RADIUS + FOOD_RADIUS) then
          let foods1 := foods.set j { f with is_present := false }
          if ρ c < 4/5 then
            let foods2 := spawn_food foods1 (ρ (c+1) * WINDOW_WIDTH)
              (ρ (c+2) * WINDOW_HEIGHT)
            feed_scan ρ fuel (c+3) ax ay (energy + ENERGY_GAIN_FROM_FOOD) foods2 (j+1)
          else
            feed_scan ρ fuel (c+1) ax ay (energy + ENERGY_GAIN_FROM_FOOD) foods1 (j+1)
        else feed_scan ρ fuel c ax ay energy foods (j+1)
      else feed_scan ρ fuel c ax ay energy foods (j+1)
    else (energy, foods, c)

/-- The outer agent loop of `handle_interactions` (`als.c` line 334): for
each life form in order run the food scan from index 0 on the current food
array, recording the agent's new energy; the food array state carries over
from one agent to the next.  `done` accumulates the processed agents. -/
def interact_go (ρ : ℕ → ℚ) (c : ℕ) (done : List LifeForm)
    (todo : List LifeForm) (foods : List Food) :
    List LifeForm × List Food × ℕ :=
  match todo with
  | [] => (done, foods, c)
  | a :: rest =>
    let s := feed_scan ρ (MAX_FOOD_SOURCES + foods.length + 1) c a.x a.y
      a.energy foods 0
    interact_go ρ s.2.2 (done ++ [{ a with energy := s.1 }]) rest s.2.1

/-- `handle_interactions` of `als.c`: the feeding scan followed by the
in-place stable compaction that removes every absent food entry (lines
353-360).  Returns the updated life forms, the compacted food array and the
new random cursor. -/
def handle_interactions (ρ : ℕ → ℚ) (c : ℕ) (agents : List LifeForm)
    (foods : List Food) : List LifeForm × List Food × ℕ :=
  let s := interact_go ρ c [] agents foods
  (s.1, s.2.1.filter (fun f => f.is_present), s.2.2)

/-- The turnover loop of `simulate_step` (`als.c` lines 383-417), iterating
index `i` over the old life-form array `old` while building the next
generation `temp`.  A dead agent (energy ≤ 0) is dropped.  An alive agent
with energy ≥ `REPRODUCTION_THRESHOLD` and headroom
(`temp.length + 1 < MAX_LIFE_FORMS`) has its energy halved in place, is
appended to `temp`, and then `spawn_life_form` appends its offspring (half
energy, mutated clamped speed factor, jittered position, parent's colour) to
the same old array this loop is iterating — so the loop bound
`i < life_form_count` re-reads the grown count and the offspring is
processed by this same loop; any other alive agent is appended to `temp`
unchanged.  Structural recursion on `fuel`; the supplier passes fuel
`old.length + MAX_LIFE_FORMS + 1`, which always suffices (see the module
comment). -/
def turnover_go (ρ : ℕ → ℚ) (fuel : ℕ) (i : ℕ)
    (old temp : List LifeForm) (c : ℕ) : List LifeForm × ℕ :=
  match fuel with
  | 0 => (temp, c)
  | fuel + 1 =>
    if h : i < old.length then
      let lf := old.get ⟨i, h⟩
      if 0 < lf.energy then
        if REPRODUCTION_THRESHOLD ≤ lf.energy ∧ temp.length + 1 < MAX_LIFE_FORMS then
          let lf1 := { lf with energy := lf.energy / 2 }
          let old1 := old.set i lf1
          let nsf0 := lf.speed_factor + (ρ c - 1/2) * (2/5)
          let nsf1 := if nsf0 < 1/2 then 1/2 else nsf0
          let nsf := if nsf1 > 2 then 2 else nsf1
          let temp1 := if temp.length < MAX_LIFE_FORMS then temp ++ [lf1] else temp
          let s := spawn_life_form ρ (c+3) old1
            (lf1.x + (ρ (c+1) - 1/2) * 10) (lf1.y + (ρ (c+2) - 1/2) * 10)
            lf1.energy nsf lf.r lf.g lf.b
          turnover_go ρ fuel (i+1) s.1 temp1 s.2
        else
          let temp1 := if temp.length < MAX_LIFE_FORMS then temp ++ [lf] else temp
          turnover_go ρ fuel (i+1) old temp1 c
      else turnover_go ρ fuel (i+1) old temp c
    else (temp, c)

/-- `simulate_step` of `als.c`: update pass, interaction pass, then — if the
scratch-buffer allocation succeeds (`allocOk`; `malloc` failure makes the C
function return right after the first two passes, leaving the globals as
they stand) — the turnover pass, whose result replaces the life-form
collection.  Returns the life forms, the foods and the new random cursor. -/
def simulate_step (dir : ℚ → ℚ → ℚ × ℚ) (ρ : ℕ → ℚ) (allocOk : Bool)
    (c : ℕ) (agents : List LifeForm) (foods : List Food) :
    List LifeForm × List Food × ℕ :=
  let u := update_all dir ρ c agents foods
  let s := handle_interactions ρ u.2 u.1 foods
  if allocOk then
    let t := turnover_go ρ (s.1.length + MAX_LIFE_FORMS + 1) 0 s.1 [] s.2.2
    (t.1, s.2.1, t.2)
  else (s.1, s.2.1, s.2.2)

/-! Concrete instantiations used by witnesses and counterexamples.  `dir0`
agrees with `(cos (atan2 dy dx), sin (atan2 dy dx))` at `(0, 0)`, the only
point at which any concrete scenario below evaluates the steering direction
(`atan2(0, 0) = 0` in C, so the true value there is `(1, 0)`). -/

/-- Constant direction function; equals the true steering direction at the
origin. -/
def dir0 : ℚ → ℚ → ℚ × ℚ := fun _ _ => (1, 0)

/-- Constant random stream 1/2 (every draw in the middle of [0,1]). -/
def rho_half : ℕ → ℚ := fun _ => 1/2

/-- Constant random stream 9/10 (in particular every respawn roll fails,
since 9/10 is not < 4/5, and no random direction change fires). -/
def rho_nine : ℕ → ℚ := fun _ => 9/10

/-! Basic facts about the per-agent updater. -/

/-- The energy clamp lands in `[0, MAX_ENERGY]`. -/
theorem clamp_energy_nonneg (e : ℚ) : 0 ≤ clamp_energy e := by
  unfold clamp_energy
  split
  · norm_num [MAX_ENERGY]
  · split
    · exact le_refl 0
    · exact not_lt.mp (by assumption)

/-- The energy clamp never exceeds `MAX_ENERGY`. -/
theorem clamp_energy_le (e : ℚ) : clamp_energy e ≤ MAX_ENERGY := by
  unfold clamp_energy
  split
  · exact le_refl MAX_ENERGY
  · split
    · norm_num [MAX_ENERGY]
    · exact not_lt.mp (by assumption)

/-- The x bounce always lands the position inside
`[LIFE_FORM_RADIUS, WINDOW_WIDTH - LIFE_FORM_RADIUS]`. -/
theorem bounce_x_mem (x1 vx : ℚ) :
    LIFE_FORM_RADIUS ≤ (bounce_x x1 vx).1 ∧
    (bounce_x x1 vx).1 ≤ WINDOW_WIDTH - LIFE_FORM_RADIUS := by
  unfold bounce_x
  split
  · norm_num [LIFE_FORM_RADIUS, WINDOW_WIDTH]
  · split
    · norm_num [LIFE_FORM_RADIUS, WINDOW_WIDTH]
    · constructor <;> linarith [not_lt.mp (by assumption : ¬ x1 - LIFE_FORM_RADIUS < 0),
        not_lt.mp (by assumption : ¬ x1 + LIFE_FORM_RADIUS > WINDOW_WIDTH)]

/-- The y bounce always lands the position inside
`[LIFE_FORM_RADIUS, WINDOW_HEIGHT - LIFE_FORM_RADIUS]`. -/
theorem bounce_y_mem (y1 vy : ℚ) :
    LIFE_FORM_RADIUS ≤ (bounce_y y1 vy).1 ∧
    (bounce_y y1 vy).1 ≤ WINDOW_HEIGHT - LIFE_FORM_RADIUS := by
  unfold bounce_y
  split
  · norm_num [LIFE_FORM_RADIUS, WINDOW_HEIGHT]
  · split
    · norm_num [LIFE_FORM_RADIUS, WINDOW_HEIGHT]
    · constructor <;> linarith [not_lt.mp (by assumption : ¬ y1 - LIFE_FORM_RADIUS < 0),
        not_lt.mp (by assumption : ¬ y1 + LIFE_FORM_RADIUS > WINDOW_HEIGHT)]

/-- In every branch of the updater the resulting position is the
post-bounce position, the energy is the clamped post-loss energy, and the
identity fields (`id`, `speed_factor`, colour) are untouched. -/
theorem update_life_form_fields (dir : ℚ → ℚ → ℚ × ℚ) (ρ : ℕ → ℚ) (c : ℕ)
    (lf : LifeForm) (foods : List Food) :
    ((update_life_form dir ρ c lf foods).1).x = (bounce_x (lf.x + lf.vx) lf.vx).1 ∧
    ((update_life_form dir ρ c lf foods).1).y = (bounce_y (lf.y + lf.vy) lf.vy).1 ∧
    ((update_life_form dir ρ c lf foods).1).energy
      = clamp_energy (lf.energy - ENERGY_LOSS_PER_STEP) ∧
    ((update_life_form dir ρ c lf foods).1).id = lf.id ∧
    ((update_life_form dir ρ c lf foods).1).speed_factor = lf.speed_factor ∧
    ((update_life_form dir ρ c lf foods).1).r = lf.r ∧
    ((update_life_form dir ρ c lf foods).1).g = lf.g ∧
    ((update_life_form dir ρ c lf foods).1).b = lf.b := by
  unfold update_life_form
  rcases hnf : nearest_food_aux (bounce_x (lf.x + lf.vx) lf.vx).1
      (bounce_y (lf.y + lf.vy) lf.vy).1 foods none with _ | fd
  · simp only [hnf]
    split <;> simp
  · simp [hnf]

/-- C9.  After `update_life_form` the agent's position lies inside the
boundary-adjusted window on both axes, for every input position and
velocity: the wall bounce clamps the position into
`[LIFE_FORM_RADIUS, extent - LIFE_FORM_RADIUS]` on each axis and no later
step of the updater moves the position. -/
theorem position_bounds (dir : ℚ → ℚ → ℚ × ℚ) (ρ : ℕ → ℚ) (c : ℕ)
    (lf : LifeForm) (foods : List Food) :
    LIFE_FORM_RADIUS ≤ ((update_life_form dir ρ c lf foods).1).x ∧
    ((update_life_form dir ρ c lf foods).1).x ≤ WINDOW_WIDTH - LIFE_FORM_RADIUS ∧
    LIFE_FORM_RADIUS ≤ ((update_life_form dir ρ c lf foods).1).y ∧
    ((update_life_form dir ρ c lf foods).1).y ≤ WINDOW_HEIGHT - LIFE_FORM_RADIUS := by
  obtain ⟨hx, hy, -⟩ := update_life_form_fields dir ρ c lf foods
  rw [hx, hy]
  exact ⟨(bounce_x_mem _ _).1, (bounce_x_mem _ _).2,
    (bounce_y_mem _ _).1, (bounce_y_mem _ _).2⟩

/-- Scanning a food list with no present entry leaves the best candidate
unchanged. -/
theorem nearest_food_aux_absent (x y : ℚ) (foods : List Food)
    (best : Option (Food × ℚ)) (h : ∀ f ∈ foods, f.is_present = false) :
    nearest_food_aux x y foods best = best := by
  induction foods generalizing best with
  | nil => rfl
  | cons f rest ih =>
    unfold nearest_food_aux
    rw [h f (List.mem_cons_self f rest)]
    simp only [Bool.false_eq_true, if_false]
    exact ih _ (fun g hg => h g (List.mem_cons_of_mem f hg))

/-- C6 (amended).  A life form at `x = -1` with `vx = +1` ends the updater
with `x = LIFE_FORM_RADIUS`; and provided the foraging steering does not
overwrite the velocity (no present food) and the occasional random
direction change does not fire (the draw is at least 1/100), it ends with
`vx = -1`: position clamped, velocity sign flipped with magnitude
preserved. -/
theorem bounce_reflects (dir : ℚ → ℚ → ℚ × ℚ) (ρ : ℕ → ℚ) (c : ℕ)
    (lf : LifeForm) (foods : List Food)
    (hfoods : ∀ f ∈ foods, f.is_present = false)
    (hρ : 1/100 ≤ ρ c) (hx : lf.x = -1) (hvx : lf.vx = 1) :
    ((update_life_form dir ρ c lf foods).1).x = LIFE_FORM_RADIUS ∧
    ((update_life_form dir ρ c lf foods).1).vx = -1 := by
  have hb : bounce_x (lf.x + lf.vx) lf.vx = (LIFE_FORM_RADIUS, -1) := by
    rw [hx, hvx]
    norm_num [bounce_x, LIFE_FORM_RADIUS]
  unfold update_life_form
  simp only [nearest_food_aux_absent _ _ _ _ hfoods]
  split
  · next hlt => exact absurd hlt (not_lt.mpr hρ)
  · simp [hb]

/-- Witness for `bounce_reflects` at a concrete input. -/
theorem bounce_reflects_witness :
    ((update_life_form dir0 rho_half 0
        { x := -1, y := 300, vx := 1, vy := 0, energy := 50,
          speed_factor := 1, id := 0, r := 1, g := 2, b := 3 } []).1).x
      = LIFE_FORM_RADIUS ∧
    ((update_life_form dir0 rho_half 0
        { x := -1, y := 300, vx := 1, vy := 0, energy := 50,
          speed_factor := 1, id := 0, r := 1, g := 2, b := 3 } []).1).vx
      = -1 :=
  bounce_reflects dir0 rho_half 0 _ []
    (by intro f hf; cases hf) (by with_unfolding_all decide) rfl rfl

/-- The random stream for the C6 counterexample: the first draw fires the
1% random direction change, every later draw is 1/2. -/
def rho_c6 : ℕ → ℚ := fun n => if n = 0 then 0 else 1/2

/-- C6 (counterexample).  With no food and a first draw below 1/100, the
agent at `x = -1`, `vx = +1` has its reflected velocity overwritten by the
random direction change in the same updater call: it ends with
`x = LIFE_FORM_RADIUS` but `vx = 0 ≠ -1`, so the claim as stated fails. -/
theorem bounce_vx_overwritten :
    ((update_life_form dir0 rho_c6 0
        { x := -1, y := 300, vx := 1, vy := 0, energy := 50,
          speed_factor := 1, id := 0, r := 1, g := 2, b := 3 } []).1).x
      = LIFE_FORM_RADIUS ∧
    ¬ ((update_life_form dir0 rho_c6 0
        { x := -1, y := 300, vx := 1, vy := 0, energy := 50,
          speed_factor := 1, id := 0, r := 1, g := 2, b := 3 } []).1).vx
      = -1 := by
  with_unfolding_all decide

/-! Preservation lemmas for the update and interaction passes. -/

/-- The update pass preserves the number of life forms. -/
theorem update_all_length (dir : ℚ → ℚ → ℚ × ℚ) (ρ : ℕ → ℚ) (c : ℕ)
    (agents : List LifeForm) (foods : List Food) :
    ((update_all dir ρ c agents foods).1).length = agents.length := by
  induction agents generalizing c with
  | nil => rfl
  | cons a rest ih => simp [update_all, ih]

/-- The update pass preserves every agent's id, in order. -/
theorem update_all_ids (dir : ℚ → ℚ → ℚ × ℚ) (ρ : ℕ → ℚ) (c : ℕ)
    (agents : List LifeForm) (foods : List Food) :
    ((update_all dir ρ c agents foods).1).map (fun a => a.id)
      = agents.map (fun a => a.id) := by
  induction agents generalizing c with
  | nil => rfl
  | cons a rest ih =>
    have hid := (update_life_form_fields dir ρ c a foods).2.2.2.1
    simp [update_all, ih, hid]

/-- The interaction scan only rewrites agent energies: the resulting agent
list is the accumulator followed by the pending agents, with ids and length
preserved. -/
theorem interact_go_shape (ρ : ℕ → ℚ) :
    ∀ (todo done : List LifeForm) (foods : List Food) (c : ℕ),
    ((interact_go ρ c done todo foods).1).length = done.length + todo.length ∧
    ((interact_go ρ c done todo foods).1).map (fun a => a.id)
      = done.map (fun a => a.id) ++ todo.map (fun a => a.id) := by
  intro todo
  induction todo with
  | nil => intro done foods c; simp [interact_go]
  | cons a rest ih =>
    intro done foods c
    simp only [interact_go]
    constructor
    · rw [(ih _ _ _).1]
      simp
      omega
    · rw [(ih _ _ _).2]
      simp

/-- C7.  When the scratch-buffer allocation for the turnover pass fails,
`simulate_step` returns with the life-form collection exactly as the first
two passes (updater and interaction resolver) left it: the turnover pass
mutates neither the collection nor its count — the count equals the
pre-tick count and every pre-tick agent is still present, in order, with
its id; no agent is dropped and none is added. -/
theorem alloc_fail_keeps_generation (dir : ℚ → ℚ → ℚ × ℚ) (ρ : ℕ → ℚ)
    (c : ℕ) (agents : List LifeForm) (foods : List Food) :
    (simulate_step dir ρ false c agents foods).1
      = (handle_interactions ρ (update_all dir ρ c agents foods).2
          (update_all dir ρ c agents foods).1 foods).1 ∧
    ((simulate_step dir ρ false c agents foods).1).length = agents.length ∧
    ((simulate_step dir ρ false c agents foods).1).map (fun a => a.id)
      = agents.map (fun a => a.id) := by
  refine ⟨rfl, ?_, ?_⟩
  · show ((interact_go ρ (update_all dir ρ c agents foods).2 []
        (update_all dir ρ c agents foods).1 foods).1).length = agents.length
    rw [(interact_go_shape ρ _ _ _ _).1, update_all_length]
    simp
  · show ((interact_go ρ (update_all dir ρ c agents foods).2 []
        (update_all dir ρ c agents foods).1 foods).1).map (fun a => a.id)
      = agents.map (fun a => a.id)
    rw [(interact_go_shape ρ _ _ _ _).2, update_all_ids]
    simp

/-! Capacity bounds for the food array through the interaction pass. -/

/-- A food spawn keeps the array length under any bound that dominates both
the current length and the capacity. -/
theorem spawn_food_le (foods : List Food) (x y : ℚ) (F : ℕ)
    (hf : foods.length ≤ F) (hc : MAX_FOOD_SOURCES ≤ F) :
    (spawn_food foods x y).length ≤ F := by
  unfold spawn_food
  split
  · next hlt => simp; omega
  · exact hf

/-- The food scan keeps the food array length under any bound that
dominates both the initial length and the capacity. -/
theorem feed_scan_foods_le (ρ : ℕ → ℚ) (fuel : ℕ) :
    ∀ (c : ℕ) (ax ay energy : ℚ) (foods : List Food) (j : ℕ) (F : ℕ),
    foods.length ≤ F → MAX_FOOD_SOURCES ≤ F →
    (feed_scan ρ fuel c ax ay energy foods j).2.1.length ≤ F := by
  induction fuel with
  | zero => intro c ax ay energy foods j F hf hc; exact hf
  | succ fuel ih =>
    intro c ax ay energy foods j F hf hc
    simp only [feed_scan]
    split
    · split
      · split
        · split
          · exact ih _ _ _ _ _ _ _ (spawn_food_le _ _ _ _ (by simpa using hf) hc) hc
          · exact ih _ _ _ _ _ _ _ (by simpa using hf) hc
        · exact ih _ _ _ _ _ _ _ hf hc
      · exact ih _ _ _ _ _ _ _ hf hc
    · exact hf

/-- The interaction pass keeps the food array length within capacity. -/
theorem interact_go_foods_le (ρ : ℕ → ℚ) :
    ∀ (todo done : List LifeForm) (foods : List Food) (c : ℕ),
    foods.length ≤ MAX_FOOD_SOURCES →
    (interact_go ρ c done todo foods).2.1.length ≤ MAX_FOOD_SOURCES := by
  intro todo
  induction todo with
  | nil => intro done foods c hf; exact hf
  | cons a rest ih =>
    intro done foods c hf
    simp only [interact_go]
    exact ih _ _ _ (feed_scan_foods_le ρ _ _ _ _ _ _ _ _ hf (le_refl _))

/-! Energy bounds through the updater and the interaction pass. -/

/-- Every agent leaves the updater with energy in `[0, MAX_ENERGY]` (the
final clamp). -/
theorem update_all_energy (dir : ℚ → ℚ → ℚ × ℚ) (ρ : ℕ → ℚ) (c : ℕ)
    (agents : List LifeForm) (foods : List Food) :
    ∀ a ∈ (update_all dir ρ c agents foods).1,
      0 ≤ a.energy ∧ a.energy ≤ MAX_ENERGY := by
  induction agents generalizing c with
  | nil => intro a ha; cases ha
  | cons a rest ih =>
    intro b hb
    simp only [update_all] at hb
    rcases List.mem_cons.mp hb with h1 | h1
    · rw [h1, (update_life_form_fields dir ρ c a foods).2.2.1]
      exact ⟨clamp_energy_nonneg _, clamp_energy_le _⟩
    · exact ih _ b h1

/-- Along the food scan an agent's energy never decreases, and it grows by
`ENERGY_GAIN_FROM_FOOD` at most once per remaining scan index below any
bound `F` that dominates both the food-array length and the capacity. -/
theorem feed_scan_energy (ρ : ℕ → ℚ) (fuel : ℕ) :
    ∀ (c : ℕ) (ax ay energy : ℚ) (foods : List Food) (j : ℕ) (F : ℕ),
    foods.length ≤ F → MAX_FOOD_SOURCES ≤ F →
    energy ≤ (feed_scan ρ fuel c ax ay energy foods j).1 ∧
    (feed_scan ρ fuel c ax ay energy foods j).1
      ≤ energy + ENERGY_GAIN_FROM_FOOD * ((F - j : ℕ) : ℚ) := by
  have hG : (0:ℚ) ≤ ENERGY_GAIN_FROM_FOOD := by norm_num [ENERGY_GAIN_FROM_FOOD]
  induction fuel with
  | zero =>
    intro c ax ay energy foods j F hf hc
    exact ⟨le_refl _, le_add_of_nonneg_right (mul_nonneg hG (Nat.cast_nonneg _))⟩
  | succ fuel ih =>
    intro c ax ay energy foods j F hf hc
    simp only [feed_scan]
    split
    · next hj =>
      have hjF : j < F := lt_of_lt_of_le hj hf
      have hsub : ((F - j : ℕ) : ℚ) = ((F - (j+1) : ℕ) : ℚ) + 1 := by
        have h2 : (F - j : ℕ) = (F - (j+1) : ℕ) + 1 := by omega
        rw [h2]; push_cast; ring
      have hmono : ((F - (j+1) : ℕ) : ℚ) ≤ ((F - j : ℕ) : ℚ) := by
        have h3 : (F - (j+1) : ℕ) ≤ (F - j : ℕ) := by omega
        exact_mod_cast h3
      split
      · split
        · split
          · constructor
            · refine le_trans (by linarith)
                ((ih (c+3) ax ay (energy + ENERGY_GAIN_FROM_FOOD) _ (j+1) F ?_ hc).1)
              exact spawn_food_le _ _ _ _ (by simpa using hf) hc
            · refine le_trans
                ((ih (c+3) ax ay (energy + ENERGY_GAIN_FROM_FOOD) _ (j+1) F ?_ hc).2) ?_
              · exact spawn_food_le _ _ _ _ (by simpa using hf) hc
              · rw [hsub]; ring_nf; linarith
          · constructor
            · refine le_trans (by linarith)
                ((ih (c+1) ax ay (energy + ENERGY_GAIN_FROM_FOOD) _ (j+1) F ?_ hc).1)
              simpa using hf
            · refine le_trans
                ((ih (c+1) ax ay (energy + ENERGY_GAIN_FROM_FOOD) _ (j+1) F ?_ hc).2) ?_
              · simpa using hf
              · rw [hsub]; ring_nf; linarith
        · refine ⟨(ih c ax ay energy foods (j+1) F hf hc).1,
            le_trans ((ih c ax ay energy foods (j+1) F hf hc).2) ?_⟩
          nlinarith
      · refine ⟨(ih c ax ay energy foods (j+1) F hf hc).1,
          le_trans ((ih c ax ay energy foods (j+1) F hf hc).2) ?_⟩
        nlinarith
    · exact ⟨le_refl _, le_add_of_nonneg_right (mul_nonneg hG (Nat.cast_nonneg _))⟩

/-- Through the interaction pass every agent keeps at least its lower
energy bound and gains at most `ENERGY_GAIN_FROM_FOOD * MAX_FOOD_SOURCES`
over its upper bound. -/
theorem interact_go_energy (ρ : ℕ → ℚ) (lo hi : ℚ) :
    ∀ (todo done : List LifeForm) (foods : List Food) (c : ℕ),
    foods.length ≤ MAX_FOOD_SOURCES →
    (∀ a ∈ done, lo ≤ a.energy ∧
      a.energy ≤ hi + ENERGY_GAIN_FROM_FOOD * (MAX_FOOD_SOURCES : ℚ)) →
    (∀ a ∈ todo, lo ≤ a.energy ∧ a.energy ≤ hi) →
    ∀ a ∈ (interact_go ρ c done todo foods).1,
      lo ≤ a.energy ∧
      a.energy ≤ hi + ENERGY_GAIN_FROM_FOOD * (MAX_FOOD_SOURCES : ℚ) := by
  intro todo
  induction todo with
  | nil => intro done foods c _ hdone _; exact hdone
  | cons a rest ih =>
    intro done foods c hf hdone htodo
    simp only [interact_go]
    apply ih _ _ _ (feed_scan_foods_le ρ _ _ _ _ _ _ _ _ hf (le_refl _))
    · intro b hb
      rcases List.mem_append.mp hb with h1 | h1
      · exact hdone b h1
      · rw [List.mem_singleton.mp h1]
        obtain ⟨he1, he2⟩ := feed_scan_energy ρ _ c a.x a.y a.energy foods 0
          MAX_FOOD_SOURCES hf (le_refl _)
        obtain ⟨ha1, ha2⟩ := htodo a (List.mem_cons_self a rest)
        constructor
        · exact le_trans ha1 he1
        · simp only []
          refine le_trans he2 ?_
          simp only [Nat.sub_zero]
          linarith
    · intro b hb
      exact htodo b (List.mem_cons_of_mem a hb)

/-! Lemmas about the turnover loop. -/

/-- Members of a guarded append are old members or the appended element. -/
theorem mem_guard_append {P : LifeForm → Prop} (cond : Prop) [Decidable cond]
    {temp : List LifeForm} {x : LifeForm}
    (h : ∀ a ∈ temp, P a) (hx : P x) :
    ∀ a ∈ (if cond then temp ++ [x] else temp), P a := by
  split
  · intro a ha
    rcases List.mem_append.mp ha with h1 | h1
    · exact h a h1
    · rw [List.mem_singleton.mp h1]; exact hx
  · exact h

/-- Members of a spawn result are old members or carry the given energy. -/
theorem spawn_life_form_mem (ρ : ℕ → ℚ) (c : ℕ) (agents : List LifeForm)
    (x y energy sf : ℚ) (r g b : ℕ) :
    ∀ a ∈ (spawn_life_form ρ c agents x y energy sf r g b).1,
      a ∈ agents ∨ a.energy = energy := by
  unfold spawn_life_form
  split
  · intro a ha
    rcases List.mem_append.mp ha with h1 | h1
    · exact Or.inl h1
    · right; rw [List.mem_singleton.mp h1]
  · exact fun a ha => Or.inl ha

/-- The next generation built by the turnover loop never exceeds
`MAX_LIFE_FORMS`: every append to it is guarded by a strict capacity
check. -/
theorem turnover_go_capacity (ρ : ℕ → ℚ) (fuel : ℕ) :
    ∀ (i : ℕ) (old temp : List LifeForm) (c : ℕ),
    temp.length ≤ MAX_LIFE_FORMS →
    ((turnover_go ρ fuel i old temp c).1).length ≤ MAX_LIFE_FORMS := by
  induction fuel with
  | zero => intro i old temp c h; exact h
  | succ fuel ih =>
    intro i old temp c h
    simp only [turnover_go]
    split
    · split
      · split
        · apply ih
          split
          · next hlen => simp; omega
          · exact h
        · apply ih
          split
          · next hlen => simp; omega
          · exact h
      · exact ih _ _ _ _ h
    · exact h

/-- Every member of the next generation built by the turnover loop has
strictly positive energy: dead agents are dropped, survivors are appended
alive (possibly halved, which preserves positivity). -/
theorem turnover_go_pos (ρ : ℕ → ℚ) (fuel : ℕ) :
    ∀ (i : ℕ) (old temp : List LifeForm) (c : ℕ),
    (∀ a ∈ temp, 0 < a.energy) →
    ∀ a ∈ (turnover_go ρ fuel i old temp c).1, 0 < a.energy := by
  induction fuel with
  | zero => intro i old temp c h; exact h
  | succ fuel ih =>
    intro i old temp c h
    simp only [turnover_go]
    split
    · next hi =>
      split
      · next hpos =>
        split
        · apply ih
          apply mem_guard_append _ h
          simpa using half_pos hpos
        · apply ih
          exact mem_guard_append _ h hpos
      · exact ih _ _ _ _ h
    · exact h

/-- Every member of the next generation keeps its energy below any
nonnegative bound `B` that bounds every member of the old array: survivors
are copied, reproduction halves a nonnegative energy. -/
theorem turnover_go_bound (ρ : ℕ → ℚ) (B : ℚ) (fuel : ℕ) :
    ∀ (i : ℕ) (old temp : List LifeForm) (c : ℕ),
    (∀ a ∈ old, 0 ≤ a.energy ∧ a.energy ≤ B) →
    (∀ a ∈ temp, a.energy ≤ B) →
    ∀ a ∈ (turnover_go ρ fuel i old temp c).1, a.energy ≤ B := by
  induction fuel with
  | zero => intro i old temp c _ h; exact h
  | succ fuel ih =>
    intro i old temp c hold h
    simp only [turnover_go]
    split
    · next hi =>
      have hmem := hold _ (List.get_mem old i hi)
      have hhalf : (old.get ⟨i, hi⟩).energy / 2 ≤ B :=
        le_trans (half_le_self hmem.1) hmem.2
      have hhalf0 : 0 ≤ (old.get ⟨i, hi⟩).energy / 2 :=
        div_nonneg hmem.1 (by norm_num)
      split
      · split
        · apply ih
          · intro a ha
            rcases spawn_life_form_mem ρ _ _ _ _ _ _ _ _ _ a ha with h1 | h1
            · rcases List.mem_or_eq_of_mem_set h1 with h2 | h2
              · exact hold a h2
              · rw [h2]; exact ⟨hhalf0, hhalf⟩
            · rw [h1]; exact ⟨hhalf0, hhalf⟩
          · apply mem_guard_append _ h
            simpa using hhalf
        · apply ih _ _ _ _ hold
          exact mem_guard_append _ h hmem.2
      · exact ih _ _ _ _ hold h
    · exact h

/-- Dropping past an in-place update at index `i` ignores the update. -/
theorem drop_set_succ {α : Type} (l : List α) (b : α) (i : ℕ) :
    (l.set i b).drop (i+1) = l.drop (i+1) := by
  induction l generalizing i with
  | nil => simp
  | cons a t ih =>
    cases i with
    | zero => simp
    | succ k => simpa using ih k

/-- Appending at the back cannot decrease the count of matching entries in
any tail. -/
theorem countP_drop_append (l t : List LifeForm) (k : ℕ) (p : LifeForm → Bool) :
    (l.drop k).countP p ≤ ((l ++ t).drop k).countP p := by
  rw [List.drop_append_eq_append_drop, List.countP_append]
  omega

/-- With the fuel `simulate_step` supplies, the turnover loop appends at
least one next-generation entry for every alive agent in the part of the
old array it has not yet scanned: no positive-energy agent is silently
dropped (the guarded appends never reject, because the next generation
never outgrows the number of scanned agents). -/
theorem turnover_go_complete (ρ : ℕ → ℚ) (fuel : ℕ) :
    ∀ (i : ℕ) (old temp : List LifeForm) (c : ℕ),
    old.length ≤ MAX_LIFE_FORMS →
    temp.length ≤ i →
    (old.length - i) + (MAX_LIFE_FORMS - old.length) < fuel →
    temp.length + (old.drop i).countP (fun a => decide (0 < a.energy))
      ≤ ((turnover_go ρ fuel i old temp c).1).length := by
  induction fuel with
  | zero => intro i old temp c h1 h2 h3; omega
  | succ fuel ih =>
    intro i old temp c hlen htemp hfuel
    simp only [turnover_go]
    split
    · next hi =>
      have htemp_lt : temp.length < MAX_LIFE_FORMS := by omega
      rw [List.drop_eq_getElem_cons hi, List.countP_cons]
      by_cases hpos : 0 < (old.get ⟨i, hi⟩).energy
      · rw [if_pos hpos]
        have hcount1 :
            (if (fun a => decide (0 < a.energy)) old[i] = true then 1 else 0) = 1 := by
          simp only [List.get_eq_getElem] at hpos
          simp [hpos]
        rw [hcount1]
        split
        · next hrep =>
          unfold spawn_life_form
          split
          · next hcap =>
            refine le_trans ?_ (ih (i+1) _ _ _ ?_ ?_ ?_)
            · simp [List.drop_append_eq_append_drop, List.countP_append, drop_set_succ]
              omega
            · simp only [List.length_set] at hcap
              simp
              omega
            · simp
              omega
            · simp only [List.length_set] at hcap
              simp
              omega
          · next hcap =>
            refine le_trans ?_ (ih (i+1) _ _ _ ?_ ?_ ?_)
            · simp [drop_set_succ]
              omega
            · simp only [List.length_set] at hcap
              simp
              omega
            · simp
              omega
            · simp only [List.length_set] at hcap
              simp
              omega
        · refine le_trans ?_ (ih (i+1) old _ c hlen (by simp; omega) (by omega))
          simp
          omega
      · rw [if_neg hpos]
        have hcount0 :
            (if (fun a => decide (0 < a.energy)) old[i] = true then 1 else 0) = 0 := by
          simp only [List.get_eq_getElem] at hpos
          simp [hpos]
        rw [hcount0]
        have key := ih (i+1) old temp c hlen (by omega) (by omega)
        omega
    · next hi =>
      rw [List.drop_eq_nil_of_le (le_of_not_lt hi)]
      simp

/-- C4.  After `simulate_step` — whether or not the turnover scratch
allocation succeeds — the life-form count is at most `MAX_LIFE_FORMS` and
the food count is at most `MAX_FOOD_SOURCES`, for every tick starting
within those capacities: the next generation is rebuilt behind strict
capacity guards, so the offspring spawned while the turnover loop is still
running cannot push the population past the bound, and food respawns are
capacity-guarded likewise. -/
theorem capacity_invariant (dir : ℚ → ℚ → ℚ × ℚ) (ρ : ℕ → ℚ) (allocOk : Bool)
    (c : ℕ) (agents : List LifeForm) (foods : List Food)
    (hA : agents.length ≤ MAX_LIFE_FORMS)
    (hF : foods.length ≤ MAX_FOOD_SOURCES) :
    ((simulate_step dir ρ allocOk c agents foods).1).length ≤ MAX_LIFE_FORMS ∧
    ((simulate_step dir ρ allocOk c agents foods).2.1).length ≤ MAX_FOOD_SOURCES := by
  have hfood : (((interact_go ρ (update_all dir ρ c agents foods).2 []
      (update_all dir ρ c agents foods).1 foods).2.1).filter
        (fun f => f.is_present)).length ≤ MAX_FOOD_SOURCES :=
    le_trans (List.length_filter_le _ _) (interact_go_foods_le ρ _ _ _ _ hF)
  cases allocOk with
  | false =>
    constructor
    · show ((interact_go ρ (update_all dir ρ c agents foods).2 []
          (update_all dir ρ c agents foods).1 foods).1).length ≤ MAX_LIFE_FORMS
      rw [(interact_go_shape ρ _ _ _ _).1, update_all_length]
      simpa using hA
    · exact hfood
  | true =>
    constructor
    · exact turnover_go_capacity ρ _ 0 _ [] _ (Nat.zero_le _)
    · exact hfood

/-- Witness for `capacity_invariant` at a concrete input. -/
theorem capacity_invariant_witness :
    ((simulate_step dir0 rho_half true 0
        [{ x := 100, y := 100, vx := 0, vy := 0, energy := 100,
           speed_factor := 1, id := 0, r := 1, g := 2, b := 3 }] []).1).length
      ≤ MAX_LIFE_FORMS ∧
    ((simulate_step dir0 rho_half true 0
        [{ x := 100, y := 100, vx := 0, vy := 0, energy := 100,
           speed_factor := 1, id := 0, r := 1, g := 2, b := 3 }] []).2.1).length
      ≤ MAX_FOOD_SOURCES :=
  capacity_invariant dir0 rho_half true 0 _ [] (by decide) (by decide)

/-- C8.  After a successful `simulate_step` no life form with energy ≤ 0
remains in the collection, and the drop is exact: every agent of the
post-interaction collection with strictly positive energy contributes at
least one entry to the next generation (the guarded appends never reject),
so the turnover pass removes exactly the non-positive-energy agents. -/
theorem death_exact (dir : ℚ → ℚ → ℚ × ℚ) (ρ : ℕ → ℚ) (c : ℕ)
    (agents : List LifeForm) (foods : List Food)
    (hA : agents.length ≤ MAX_LIFE_FORMS) :
    (∀ a ∈ (simulate_step dir ρ true c agents foods).1, 0 < a.energy) ∧
    ((handle_interactions ρ (update_all dir ρ c agents foods).2
        (update_all dir ρ c agents foods).1 foods).1).countP
      (fun a => decide (0 < a.energy))
      ≤ ((simulate_step dir ρ true c agents foods).1).length := by
  have hlen : ((handle_interactions ρ (update_all dir ρ c agents foods).2
      (update_all dir ρ c agents foods).1 foods).1).length = agents.length := by
    show ((interact_go ρ (update_all dir ρ c agents foods).2 []
        (update_all dir ρ c agents foods).1 foods).1).length = agents.length
    rw [(interact_go_shape ρ _ _ _ _).1, update_all_length]
    simp
  constructor
  · intro a ha
    exact turnover_go_pos ρ _ 0 _ [] _ (fun b hb => absurd hb (List.not_mem_nil b)) a ha
  · have key := turnover_go_complete ρ
      (((handle_interactions ρ (update_all dir ρ c agents foods).2
          (update_all dir ρ c agents foods).1 foods).1).length + MAX_LIFE_FORMS + 1)
      0
      ((handle_interactions ρ (update_all dir ρ c agents foods).2
          (update_all dir ρ c agents foods).1 foods).1)
      []
      ((handle_interactions ρ (update_all dir ρ c agents foods).2
          (update_all dir ρ c agents foods).1 foods).2.2)
      (by rw [hlen]; exact hA)
      (by simp)
      (by rw [hlen]; omega)
    simpa using key

/-- Witness for `death_exact` at a concrete input. -/
theorem death_exact_witness :
    (∀ a ∈ (simulate_step dir0 rho_half true 0
        [{ x := 100, y := 100, vx := 0, vy := 0, energy := 100,
           speed_factor := 1, id := 0, r := 1, g := 2, b := 3 }] []).1,
        0 < a.energy) ∧
    ((handle_interactions rho_half (update_all dir0 rho_half 0
        [{ x := 100, y := 100, vx := 0, vy := 0, energy := 100,
           speed_factor := 1, id := 0, r := 1, g := 2, b := 3 }] []).2
        (update_all dir0 rho_half 0
        [{ x := 100, y := 100, vx := 0, vy := 0, energy := 100,
           speed_factor := 1, id := 0, r := 1, g := 2, b := 3 }] []).1 []).1).countP
      (fun a => decide (0 < a.energy))
      ≤ ((simulate_step dir0 rho_half true 0
        [{ x := 100, y := 100, vx := 0, vy := 0, energy := 100,
           speed_factor := 1, id := 0, r := 1, g := 2, b := 3 }] []).1).length :=
  death_exact dir0 rho_half 0 _ [] (by decide)

/-- C1 (amended).  After a successful `simulate_step` every surviving life
form's energy lies in the window
`(0, MAX_ENERGY + ENERGY_GAIN_FROM_FOOD * MAX_FOOD_SOURCES]`, for every
tick starting with the food collection within capacity.  The claimed upper
bound `MAX_ENERGY` itself does not hold in the post-tick collection: the
interaction pass adds `ENERGY_GAIN_FROM_FOOD` per consumed food without
capping, and the turnover pass at most halves, so an agent that consumed
food that tick can exceed `MAX_ENERGY` until the next tick's clamp. -/
theorem energy_window_after_step (dir : ℚ → ℚ → ℚ × ℚ) (ρ : ℕ → ℚ) (c : ℕ)
    (agents : List LifeForm) (foods : List Food)
    (hF : foods.length ≤ MAX_FOOD_SOURCES) :
    ∀ a ∈ (simulate_step dir ρ true c agents foods).1,
      0 < a.energy ∧
      a.energy ≤ MAX_ENERGY + ENERGY_GAIN_FROM_FOOD * (MAX_FOOD_SOURCES : ℚ) := by
  intro a ha
  have hmid : ∀ b ∈ (interact_go ρ (update_all dir ρ c agents foods).2 []
      (update_all dir ρ c agents foods).1 foods).1,
      0 ≤ b.energy ∧
      b.energy ≤ MAX_ENERGY + ENERGY_GAIN_FROM_FOOD * (MAX_FOOD_SOURCES : ℚ) :=
    interact_go_energy ρ 0 MAX_ENERGY _ [] foods _ hF
      (fun b hb => absurd hb (List.not_mem_nil b))
      (update_all_energy dir ρ c agents foods)
  constructor
  · exact turnover_go_pos ρ _ 0 _ [] _
      (fun b hb => absurd hb (List.not_mem_nil b)) a ha
  · exact turnover_go_bound ρ _ _ 0 _ [] _ hmid
      (fun b hb => absurd hb (List.not_mem_nil b)) a ha

/-- Witness for `energy_window_after_step` at a concrete input, evaluated
at the surviving parent of the post-tick collection. -/
theorem energy_window_after_step_witness :
    0 < ({ x := 100, y := 100, vx := 0, vy := 0, energy := 1999/40,
           speed_factor := 1, id := 0, r := 1, g := 2, b := 3 } : LifeForm).energy ∧
    ({ x := 100, y := 100, vx := 0, vy := 0, energy := 1999/40,
       speed_factor := 1, id := 0, r := 1, g := 2, b := 3 } : LifeForm).energy
      ≤ MAX_ENERGY + ENERGY_GAIN_FROM_FOOD * (MAX_FOOD_SOURCES : ℚ) :=
  energy_window_after_step dir0 rho_half 0
    [{ x := 100, y := 100, vx := 0, vy := 0, energy := 100,
       speed_factor := 1, id := 0, r := 1, g := 2, b := 3 }] []
    (by decide) _ (by with_unfolding_all decide)

/-- C1 (counterexample): one full-energy agent standing on six food items,
with a draw stream that suppresses every respawn.  After one tick the
surviving parent's energy is 4399/40 = 109.975 > MAX_ENERGY: the clamp
invariant fails on the post-tick collection when food was consumed that
tick. -/
theorem energy_can_exceed_max :
    ¬ (∀ a ∈ (simulate_step dir0 rho_nine true 0
        [{ x := 100, y := 100, vx := 0, vy := 0, energy := 100,
           speed_factor := 1, id := 0, r := 1, g := 2, b := 3 }]
        (List.replicate 6 { x := 100, y := 100, is_present := true })).1,
        a.energy ≤ MAX_ENERGY) := by
  with_unfolding_all decide

/-! Evaluation lemmas for the concrete scenarios. -/

/-- With no food, the updater moves, bounces, clamps energy, and either
keeps or redraws the velocity; the other fields follow the standard
shape. -/
theorem update_life_form_no_food (dir : ℚ → ℚ → ℚ × ℚ) (ρ : ℕ → ℚ) (c : ℕ)
    (lf : LifeForm) :
    ∃ vx vy c1, update_life_form dir ρ c lf [] =
      ({ lf with x := (bounce_x (lf.x + lf.vx) lf.vx).1,
                 y := (bounce_y (lf.y + lf.vy) lf.vy).1,
                 vx := vx, vy := vy,
                 energy := clamp_energy (lf.energy - ENERGY_LOSS_PER_STEP) }, c1) := by
  unfold update_life_form
  simp only [nearest_food_aux]
  split
  · exact ⟨_, _, _, rfl⟩
  · exact ⟨_, _, _, rfl⟩

/-- A single agent with no food passes through the interaction pass
untouched. -/
theorem interact_single_no_food (ρ : ℕ → ℚ) (c : ℕ) (a : LifeForm) :
    handle_interactions ρ c [a] [] = ([a], [], c) := by
  simp [handle_interactions, interact_go, feed_scan]

/-- The speed-factor mutation clamp of the turnover pass always lands in
`[1/2, 2]`. -/
theorem clamp_sf_bounds (s : ℚ) :
    1/2 ≤ (if (if s < 1/2 then (1/2:ℚ) else s) > 2 then 2
           else if s < 1/2 then (1/2:ℚ) else s) ∧
    (if (if s < 1/2 then (1/2:ℚ) else s) > 2 then 2
     else if s < 1/2 then (1/2:ℚ) else s) ≤ 2 := by
  by_cases h1 : s < 1/2
  · rw [if_pos h1]
    norm_num
  · rw [if_neg h1]
    by_cases h2 : s > 2
    · rw [if_pos h2]
      norm_num
    · rw [if_neg h2]
      exact ⟨not_lt.mp h1, not_lt.mp h2⟩

/-- Evaluating the turnover loop on a single agent that reproduces once
(its energy at or above the threshold, its half energy below): the next
generation is the halved parent followed by one offspring carrying the
halved energy, the jittered position, the parent's colour and id 1; the
offspring's mutated speed factor lies in `[1/2, 2]`. -/
theorem turnover_singleton_repro (ρ : ℕ → ℚ) (c : ℕ) (a : LifeForm)
    (fuel : ℕ) (hfuel : 2 < fuel)
    (he1 : 0 < a.energy) (he2 : REPRODUCTION_THRESHOLD ≤ a.energy)
    (he3 : a.energy / 2 < REPRODUCTION_THRESHOLD) :
    ((turnover_go ρ fuel 0 [a] [] c).1).map (fun b => (b.energy, b.id, b.r, b.g, b.b))
      = [(a.energy / 2, a.id, a.r, a.g, a.b), (a.energy / 2, 1, a.r, a.g, a.b)] ∧
    ((turnover_go ρ fuel 0 [a] [] c).1).map (fun b => (b.x, b.y))
      = [(a.x, a.y),
         (a.x + (ρ (c+1) - 1/2) * 10, a.y + (ρ (c+2) - 1/2) * 10)] ∧
    ∀ b ∈ ((turnover_go ρ fuel 0 [a] [] c).1).drop 1,
      1/2 ≤ b.speed_factor ∧ b.speed_factor ≤ 2 := by
  obtain ⟨k, rfl⟩ : ∃ k, fuel = k+1+1+1 := ⟨fuel - 3, by omega⟩
  have hhalf := half_pos he1
  have hno : ¬ (REPRODUCTION_THRESHOLD ≤ a.energy / 2) := not_le.mpr he3
  refine ⟨?_, ?_, ?_⟩
  · simp [turnover_go, spawn_life_form, MAX_LIFE_FORMS, he1, he2, hhalf, hno]
  · simp [turnover_go, spawn_life_form, MAX_LIFE_FORMS, he1, he2, hhalf, hno]
  · simpa [turnover_go, spawn_life_form, MAX_LIFE_FORMS, he1, he2, hhalf, hno]
      using clamp_sf_bounds (a.speed_factor + (ρ c - 1/2) * (2/5))

/-- C5 (amended).  A life form within collision range of a present food
item consumes it when it is the first agent to reach that food: in the
one-agent-one-food instance (with the respawn roll failing), after
`handle_interactions` the food is removed from the collection — not merely
flagged — and the agent's energy has increased by exactly
`ENERGY_GAIN_FROM_FOOD` over its post-updater value.  In general an
agent's energy rises by `ENERGY_GAIN_FROM_FOOD` once per food it
consumes, which can be zero when an earlier-scanned agent consumed the
shared food first. -/
theorem consume_single (ρ : ℕ → ℚ) (c : ℕ) (lf : LifeForm) (f : Food)
    (hp : f.is_present = true)
    (hd : distance_sq lf.x lf.y f.x f.y
      < (LIFE_FORM_RADIUS + FOOD_RADIUS) * (LIFE_FORM_RADIUS + FOOD_RADIUS))
    (hr : 4/5 ≤ ρ c) :
    handle_interactions ρ c [lf] [f]
      = ([{ lf with energy := lf.energy + ENERGY_GAIN_FROM_FOOD }], [], c + 1) := by
  have hno : ¬ (ρ c < 4/5) := not_lt.mpr hr
  simp [handle_interactions, interact_go, feed_scan, hp, hd, hno]

/-- Witness for `consume_single` at a concrete input. -/
theorem consume_single_witness :
    handle_interactions rho_nine 0
        [{ x := 100, y := 100, vx := 0, vy := 0, energy := 50, speed_factor := 1,
           id := 0, r := 1, g := 2, b := 3 }]
        [{ x := 100, y := 100, is_present := true }]
      = ([{ x := 100, y := 100, vx := 0, vy := 0,
            energy := 50 + ENERGY_GAIN_FROM_FOOD,
            speed_factor := 1, id := 0, r := 1, g := 2, b := 3 }], [], 1) :=
  consume_single rho_nine 0 _ _ rfl (by with_unfolding_all decide)
    (by with_unfolding_all decide)

/-- C5 (counterexample): two agents standing on one food item.  The food
is present and within range of the second agent when the interaction pass
runs, but the earlier-scanned agent consumes it first: after the tick the
second agent's energy is 999/20 — exactly its post-updater value
(50 - ENERGY_LOSS_PER_STEP), not increased by ENERGY_GAIN_FROM_FOOD — so
the claim as stated fails. -/
theorem second_agent_gains_nothing :
    distance_sq 100 100 100 100
      < (LIFE_FORM_RADIUS + FOOD_RADIUS) * (LIFE_FORM_RADIUS + FOOD_RADIUS) ∧
    ((simulate_step dir0 rho_nine true 0
        [{ x := 100, y := 100, vx := 0, vy := 0, energy := 50, speed_factor := 1,
           id := 0, r := 1, g := 2, b := 3 },
         { x := 100, y := 100, vx := 0, vy := 0, energy := 50, speed_factor := 1,
           id := 1, r := 4, g := 5, b := 6 }]
        [{ x := 100, y := 100, is_present := true }]).1.map (fun a => a.energy))
      = [1399/20, 999/20] := by
  with_unfolding_all decide

/-- C3 (code bug).  Ids are not unique: `spawn_life_form` assigns
`id := life_form_count`, so after a death has shrunk the count below a
surviving agent's id, the next offspring receives an id still held by a
living agent.  Here the population [id 1 (energy 90), id 2 (energy 10)] —
the state the simulation reaches when an id-0 agent has died — goes
through one tick: the id-1 agent reproduces, the offspring receives
id = life_form_count = 2 while the id-2 agent is still alive, and the
post-tick id list is [1, 2, 2]. -/
theorem id_collision :
    ((simulate_step dir0 rho_half true 0
        [{ x := 100, y := 100, vx := 0, vy := 0, energy := 90, speed_factor := 1,
           id := 1, r := 10, g := 20, b := 30 },
         { x := 200, y := 200, vx := 0, vy := 0, energy := 10, speed_factor := 1,
           id := 2, r := 1, g := 2, b := 3 }] []).1.map (fun a => a.id))
      = [1, 2, 2] := by
  with_unfolding_all decide

/-- C10.  The turnover loop appends offspring to the same old array it is
iterating (the loop bound re-reads the grown count), so an offspring is
processed by the same tick's turnover pass and reaches the post-tick
collection only through that continued iteration; when its inherited
half-parent energy is still at or above `REPRODUCTION_THRESHOLD` it
reproduces again within the same tick.  For a single agent whose energy
halves to at least the threshold (and quarters below it), one turnover
pass yields three agents: the parent (halved), the offspring — halved
again because it reproduced during the same loop — and the grandchild,
with ids assigned from the growing count: [a.id, 1, 2]. -/
theorem offspring_cascade (ρ : ℕ → ℚ) (c : ℕ) (a : LifeForm) (fuel : ℕ)
    (hfuel : 3 < fuel)
    (he2 : REPRODUCTION_THRESHOLD ≤ a.energy / 2)
    (he3 : a.energy / 4 < REPRODUCTION_THRESHOLD) :
    ((turnover_go ρ fuel 0 [a] [] c).1).map (fun b => (b.energy, b.id))
      = [(a.energy / 2, a.id), (a.energy / 4, 1), (a.energy / 4, 2)] := by
  obtain ⟨k, rfl⟩ : ∃ k, fuel = k+1+1+1+1 := ⟨fuel - 4, by omega⟩
  have he1 : 0 < a.energy := by
    norm_num [REPRODUCTION_THRESHOLD] at he2
    linarith
  have he2' : REPRODUCTION_THRESHOLD ≤ a.energy := by
    norm_num [REPRODUCTION_THRESHOLD] at he2 ⊢
    linarith
  have hoff_pos : 0 < a.energy / 2 := half_pos he1
  have hq : 0 < a.energy / 4 := div_pos he1 (by norm_num)
  have hgc_no : ¬ (REPRODUCTION_THRESHOLD ≤ a.energy / 4) := not_le.mpr he3
  have hhalf_half : a.energy / 2 / 2 = a.energy / 4 := by ring
  simp [turnover_go, spawn_life_form, MAX_LIFE_FORMS, he1, he2, he2',
    hoff_pos, hq, hgc_no, hhalf_half]

/-- Witness for `offspring_cascade` at a concrete input. -/
theorem offspring_cascade_witness :
    ((turnover_go rho_half 202 0
        [{ x := 100, y := 100, vx := 0, vy := 0, energy := 200, speed_factor := 1,
           id := 0, r := 1, g := 2, b := 3 }] [] 0).1).map (fun b => (b.energy, b.id))
      = [((200:ℚ) / 2, 0), ((200:ℚ) / 4, 1), ((200:ℚ) / 4, 2)] :=
  offspring_cascade rho_half 0 _ 202 (by decide)
    (by with_unfolding_all decide) (by with_unfolding_all decide)

/-- The lone parent of the C2 reproduction scenario. -/
def parent_c2 : LifeForm :=
  { x := 400, y := 300, vx := 0, vy := 0, energy := 90, speed_factor := 1,
    id := 0, r := 7, g := 8, b := 9 }

/-- C2 (amended).  A life form with energy 90, alone with no food in an
otherwise default-capacity world, yields after one `simulate_step` exactly
two life forms: the parent with energy `(90 - ENERGY_LOSS_PER_STEP) / 2 =
44.975` — the per-tick loss is applied before the halving, so the claimed
value 45 = 90/2 is off by half the loss — and one offspring whose energy
equals the parent's post-halving value, at a position within 5 units of
the parent's position on each axis, with the mutated speed factor clamped
to `[1/2, 2]` and the parent's exact colour. -/
theorem reproduction_scenario (dir : ℚ → ℚ → ℚ × ℚ) (ρ : ℕ → ℚ) (c : ℕ)
    (hρ : ∀ n, 0 ≤ ρ n ∧ ρ n ≤ 1) :
    ∃ p o, (simulate_step dir ρ true c [parent_c2] []).1 = [p, o] ∧
      p.energy = (90 - ENERGY_LOSS_PER_STEP) / 2 ∧ p.id = 0 ∧
      o.energy = p.energy ∧
      |o.x - p.x| ≤ 5 ∧ |o.y - p.y| ≤ 5 ∧
      1/2 ≤ o.speed_factor ∧ o.speed_factor ≤ 2 ∧
      o.r = parent_c2.r ∧ o.g = parent_c2.g ∧ o.b = parent_c2.b := by
  obtain ⟨vx, vy, c1, hupd⟩ := update_life_form_no_food dir ρ c parent_c2
  rw [show (bounce_x (parent_c2.x + parent_c2.vx) parent_c2.vx).1 = 400 from by
        norm_num [bounce_x, parent_c2, LIFE_FORM_RADIUS, WINDOW_WIDTH],
      show (bounce_y (parent_c2.y + parent_c2.vy) parent_c2.vy).1 = 300 from by
        norm_num [bounce_y, parent_c2, LIFE_FORM_RADIUS, WINDOW_HEIGHT],
      show clamp_energy (parent_c2.energy - ENERGY_LOSS_PER_STEP) = 1799/20 from by
        norm_num [clamp_energy, parent_c2, ENERGY_LOSS_PER_STEP, MAX_ENERGY]] at hupd
  have hstep : (simulate_step dir ρ true c [parent_c2] []).1
      = (turnover_go ρ (1 + MAX_LIFE_FORMS + 1) 0
          [(update_life_form dir ρ c parent_c2 []).1] []
          (update_life_form dir ρ c parent_c2 []).2).1 := rfl
  rw [hupd] at hstep
  simp only [Prod.fst, Prod.snd] at hstep
  obtain ⟨h1, h2, h3⟩ := turnover_singleton_repro ρ c1
    { parent_c2 with x := 400, y := 300, vx := vx, vy := vy, energy := 1799/20 }
    (1 + MAX_LIFE_FORMS + 1)
    (by norm_num [MAX_LIFE_FORMS])
    (by show (0:ℚ) < 1799/20; norm_num)
    (by show REPRODUCTION_THRESHOLD ≤ (1799:ℚ)/20; norm_num [REPRODUCTION_THRESHOLD])
    (by show (1799:ℚ)/20/2 < REPRODUCTION_THRESHOLD; norm_num [REPRODUCTION_THRESHOLD])
  rw [← hstep] at h1 h2 h3
  have hlen : ((simulate_step dir ρ true c [parent_c2] []).1).length = 2 := by
    have hmap := congrArg List.length h1
    rw [List.length_map] at hmap
    simpa using hmap
  obtain ⟨p, o, hpo⟩ := List.length_eq_two.mp hlen
  rw [hpo] at h1 h2 h3
  simp only [List.map_cons, List.map_nil, List.cons.injEq, Prod.mk.injEq,
    List.drop_succ_cons, List.drop_zero] at h1 h2
  obtain ⟨⟨hpe, hpid, hpr, hpg, hpb⟩, ⟨hoe, hoid, hor, hog, hob⟩, -⟩ := h1
  obtain ⟨⟨hpx, hpy⟩, ⟨hox, hoy⟩, -⟩ := h2
  have hsf := h3 o (by simp)
  refine ⟨p, o, hpo, ?_, ?_, ?_, ?_, ?_, hsf.1, hsf.2, ?_, ?_, ?_⟩
  · rw [hpe]
    show (1799:ℚ)/20 / 2 = _
    norm_num [ENERGY_LOSS_PER_STEP]
  · rw [hpid]; rfl
  · rw [hoe, hpe]
  · obtain ⟨hl, hr⟩ := hρ (c1+1)
    rw [hox, hpx, abs_le]
    constructor <;> nlinarith
  · obtain ⟨hl, hr⟩ := hρ (c1+2)
    rw [hoy, hpy, abs_le]
    constructor <;> nlinarith
  · exact hor
  · exact hog
  · exact hob

/-- Witness for `reproduction_scenario` at a concrete input. -/
theorem reproduction_scenario_witness :
    ∃ p o, (simulate_step dir0 rho_half true 0 [parent_c2] []).1 = [p, o] ∧
      p.energy = (90 - ENERGY_LOSS_PER_STEP) / 2 ∧ p.id = 0 ∧
      o.energy = p.energy ∧
      |o.x - p.x| ≤ 5 ∧ |o.y - p.y| ≤ 5 ∧
      1/2 ≤ o.speed_factor ∧ o.speed_factor ≤ 2 ∧
      o.r = parent_c2.r ∧ o.g = parent_c2.g ∧ o.b = parent_c2.b :=
  reproduction_scenario dir0 rho_half 0
    (fun n => ⟨(by with_unfolding_all decide : (0:ℚ) ≤ 1/2),
               (by with_unfolding_all decide : (1:ℚ)/2 ≤ 1)⟩)

/-- C2 (counterexample): in the exact scenario of the claim — a lone life
form with energy 90 and no food — the surviving parent's post-tick energy
is 1799/40 = 44.975, not 45: the per-tick energy loss is deducted before
the halving. -/
theorem reproduction_parent_energy_not_45 :
    ((simulate_step dir0 rho_half true 0 [parent_c2] []).1.map (fun a => a.energy))
      = [1799/40, 1799/40] ∧ ¬ ((1799:ℚ)/40 = 45) := by
  with_unfolding_all decide

end ALS
